import Mathlib

/-!
# Foodgram backend: verification of the specification against the code

A shallow embedding of the parts of the Foodgram Django backend that the
specification talks about: the relational state (recipes, ingredients, tags,
favorites, shopping carts, subscriptions), the shopping-list aggregation and
its three rendering paths, recipe/ingredient/tag validation, the
favorite/cart/subscription endpoints, and the unit-pluralization helper.

Tables are embedded as lists of rows; Django querysets become list
operations; serializer validation becomes `Except`-valued functions; each
view action becomes a function from state to (response, state).
-/

namespace Foodgram

set_option autoImplicit false
set_option linter.unusedVariables false

/-! ### Data model (recipes/models.py, users/models.py)

Each structure mirrors the columns of one Django model that the claims
mention; columns irrelevant to every claim (images, text bodies, slugs,
cooking times) are omitted.  Primary keys and foreign keys are `Nat`. -/

/-- A row of the `Ingredient` table: `id`, `name`, `measurement_unit`. -/
structure Ingredient where
  id : Nat
  name : String
  measurement_unit : String
deriving DecidableEq, Repr

/-- A row of the `Recipe` table; only `id`, `author` and `name` matter here.
The model declares no uniqueness constraint beyond the primary key. -/
structure RecipeRow where
  id : Nat
  author : Nat
  name : String
deriving DecidableEq, Repr

/-- A row of the `RecipeIngredient` join table (`amount` is a
`PositiveSmallIntegerField`, hence `Nat`). -/
structure RecipeIngredientRow where
  recipe : Nat
  ingredient : Nat
  amount : Nat
deriving DecidableEq, Repr

/-- A row of the `RecipeTags` join table. -/
structure RecipeTagRow where
  recipe : Nat
  tag : Nat
deriving DecidableEq, Repr

/-- A row of `Favorite` or `ShoppingCart` (both inherit
`FavoriteShoppingCartBaseModel`, whose columns are `user` and `recipe`). -/
structure UserRecipeRow where
  user : Nat
  recipe : Nat
deriving DecidableEq, Repr

/-- A row of the `Subscription` table: follower `user` and followed `author`. -/
structure SubscriptionRow where
  user : Nat
  author : Nat
deriving DecidableEq, Repr

/-- The database state.  `tags` keeps only the tag ids: tag names and slugs
play no role in any claim.  `next_recipe_id` models the autoincrement key. -/
structure State where
  ingredients : List Ingredient
  tags : List Nat
  recipes : List RecipeRow
  recipe_ingredients : List RecipeIngredientRow
  recipe_tags : List RecipeTagRow
  favorites : List UserRecipeRow
  shopping_carts : List UserRecipeRow
  subscriptions : List SubscriptionRow
  next_recipe_id : Nat
deriving DecidableEq, Repr

/-- The `(user, recipe)` key pairs of a `Favorite` / `ShoppingCart` table. -/
def pairsOf (tbl : List UserRecipeRow) : List (Nat × Nat) :=
  tbl.map fun r => (r.user, r.recipe)

/-- The `UniqueConstraint(fields=("user", "recipe"))` of
`FavoriteShoppingCartBaseModel.Meta`, holding for the shopping-cart table. -/
def CartOk (st : State) : Prop := (pairsOf st.shopping_carts).Nodup

instance (st : State) : Decidable (CartOk st) := by
  unfold CartOk; infer_instance

/-! ### Shopping-list aggregation (api/utils.py `generate_shopping_list`)

The queryset is
`RecipeIngredient.objects.filter(recipe__shopping_carts__user=user)
  .values("ingredient__name", "ingredient__measurement_unit")
  .annotate(total_amount=Sum("amount"))`.

The reverse-relation filter is an SQL inner join with the `ShoppingCart`
table, so a `RecipeIngredient` row appears once per matching cart row; the
`values(...).annotate(Sum)` is a GROUP BY over the resolved
`(name, measurement_unit)` pair summing `amount`.  The query states no
ORDER BY, so groups are produced in row-encounter order. -/

/-- Resolution of `ingredient__name` through the `ingredient` foreign key. -/
def ingredient_name (st : State) (iid : Nat) : String :=
  match st.ingredients.find? fun i => i.id == iid with
  | some i => i.name
  | none => ""

/-- Resolution of `ingredient__measurement_unit` through the foreign key. -/
def ingredient_unit (st : State) (iid : Nat) : String :=
  match st.ingredients.find? fun i => i.id == iid with
  | some i => i.measurement_unit
  | none => ""

/-- The join underlying `.filter(recipe__shopping_carts__user=user)`: one
copy of each `RecipeIngredient` row per matching shopping-cart row. -/
def cart_recipe_ingredients (st : State) (user : Nat) : List RecipeIngredientRow :=
  st.recipe_ingredients.flatMap fun ri =>
    (st.shopping_carts.filter fun c => c.user == user && c.recipe == ri.recipe).map
      fun _ => ri

/-- One pre-grouping row of the `values(...)` clause. -/
structure ValuesRow where
  name : String
  unit : String
  amount : Nat
deriving DecidableEq, Repr

/-- The `values("ingredient__name", "ingredient__measurement_unit")` rows
(with the `amount` still attached) for the user's cart. -/
def values_rows (st : State) (user : Nat) : List ValuesRow :=
  (cart_recipe_ingredients st user).map fun ri =>
    { name := ingredient_name st ri.ingredient
      unit := ingredient_unit st ri.ingredient
      amount := ri.amount }

/-- GROUP BY keys in row-encounter order, first occurrence kept. -/
def firstKeys : List (String × String) → List (String × String)
  | [] => []
  | k :: ks => k :: (firstKeys ks).filter fun k2 => k2 != k

/-- One aggregated tuple of the shopping list:
`{name, unit, total_amount}`. -/
structure AggRow where
  name : String
  unit : String
  total_amount : Nat
deriving DecidableEq, Repr

/-- The GROUP BY + SUM over the `values(...)` rows: one output tuple per
distinct key in encounter order, summing the amounts of its group. -/
def group_sum (rows : List ValuesRow) : List AggRow :=
  (firstKeys (rows.map fun r => (r.name, r.unit))).map fun k =>
    { name := k.1
      unit := k.2
      total_amount :=
        ((rows.filter fun r => r.name == k.1 && r.unit == k.2).map
          fun r => r.amount).sum }

/-- `generate_shopping_list` (api/utils.py): the grouped, summed ingredient
list for the given user's shopping cart, in row-encounter order. -/
def generate_shopping_list (st : State) (user : Nat) : List AggRow :=
  group_sum (values_rows st user)

/-! ### Claim-side descriptions for the aggregation

These definitions follow the words of the specification (not the ORM call),
so that the aggregation theorem compares the code against them. -/

/-- The claim's row set: every `RecipeIngredient` row whose recipe is
present in the user's shopping cart (membership, not join multiplicity). -/
def cart_rows_spec (st : State) (user : Nat) : List RecipeIngredientRow :=
  st.recipe_ingredients.filter fun ri =>
    st.shopping_carts.any fun c => c.user == user && c.recipe == ri.recipe

/-- The claim's rows resolved to (ingredient name, unit, amount). -/
def values_rows_spec (st : State) (user : Nat) : List ValuesRow :=
  (cart_rows_spec st user).map fun ri =>
    { name := ingredient_name st ri.ingredient
      unit := ingredient_unit st ri.ingredient
      amount := ri.amount }

/-- What the claim asserts of an aggregation output `out` over rows `rows`:
one tuple per distinct (name, unit) pair occurring in `rows`, and each
tuple's `total_amount` is the sum of the amounts of exactly the rows with
that pair. -/
def AggCorrect (rows : List ValuesRow) (out : List AggRow) : Prop :=
  (out.map fun e => (e.name, e.unit)).Nodup ∧
  (∀ n u, (n, u) ∈ out.map (fun e => (e.name, e.unit)) ↔
      (n, u) ∈ rows.map fun r => (r.name, r.unit)) ∧
  ∀ e ∈ out,
    e.total_amount =
      ((rows.filter fun r => decide (r.name = e.name ∧ r.unit = e.unit)).map
        fun r => r.amount).sum

/-! ### Rendering and format dispatch

`RecipeViewSet.download_shopping_cart` (api/views.py) runs the same
aggregate query but adds `.order_by("ingredient__name")` and always renders
plain text.  `ShoppingCartViewSet.download_shopping_cart`
(foodgram/api/views.py) reads the `format` query parameter with default
`"txt"` and picks one of three renderers over `generate_shopping_list`. -/

/-- A produced download response: which renderer ran, and the aggregated
rows it rendered (`text/plain`, `text/csv` or `application/pdf`). -/
inductive Rendered where
  | txt (rows : List AggRow)
  | csv (rows : List AggRow)
  | pdf (rows : List AggRow)
deriving DecidableEq, Repr

/-- The aggregated rows carried by a response, whatever its format. -/
def Rendered.rows : Rendered → List AggRow
  | .txt rs => rs
  | .csv rs => rs
  | .pdf rs => rs

/-- The aggregate query of `RecipeViewSet.download_shopping_cart` with its
`.order_by("ingredient__name")`: the grouped rows sorted by name. -/
def download_shopping_cart_query (st : State) (user : Nat) : List AggRow :=
  List.insertionSort (fun a b => a.name ≤ b.name) (generate_shopping_list st user)

instance : IsTotal AggRow fun a b => a.name ≤ b.name :=
  ⟨fun a b => le_total a.name b.name⟩

instance : IsTrans AggRow fun a b => a.name ≤ b.name :=
  ⟨fun _ _ _ hab hbc => le_trans hab hbc⟩

/-- `RecipeViewSet.download_shopping_cart` (api/views.py): renders its
sorted query as plain text; the request's `format` parameter is never
read. -/
def recipeViewSet_download_shopping_cart (st : State) (user : Nat)
    (format : Option String) : Rendered :=
  Rendered.txt (download_shopping_cart_query st user)

/-- `ShoppingCartViewSet.download_shopping_cart` (foodgram/api/views.py):
`format = request.query_params.get("format", "txt")`, then pdf / csv /
default-txt dispatch over `generate_shopping_list`. -/
def shoppingCartViewSet_download_shopping_cart (st : State) (user : Nat)
    (format : Option String) : Rendered :=
  let fmt := format.getD "txt"
  let content := generate_shopping_list st user
  if fmt = "pdf" then Rendered.pdf content
  else if fmt = "csv" then Rendered.csv content
  else Rendered.txt content

/-! ### Recipe validation (api/serializers.py `RecipeCreateUpdateSerializer`)

`validate_ingredients` walks the submitted list: a falsy id or amount is a
format error, the ingredient must exist, ids may not repeat, and
`int(amount) < MIN_AMOUNT` is rejected.  No other amount check exists.
`validate_tags` rejects an empty list and duplicate ids.  Both fields are
declared `required`, so an absent field fails before any validator runs. -/

/-- utils/constants.py `MIN_AMOUNT`. -/
def MIN_AMOUNT : Int := 1

/-- utils/constants.py `MAX_AMOUNT` (defined there, referenced nowhere in
the validation code). -/
def MAX_AMOUNT : Int := 9999

/-- One submitted ingredient entry: `item.get("id")`, `item.get("amount")`
(`none` when the key is missing). -/
structure IngredientInput where
  id : Option Nat
  amount : Option Int
deriving DecidableEq, Repr

/-- The `for item in value` loop of `validate_ingredients`, carrying the
`ingredient_ids` set seen so far.  The checks appear in source order. -/
def validate_ingredients_loop (ingTable : List Ingredient) (seen : List Nat) :
    List IngredientInput → Except String (List (Nat × Int))
  | [] => Except.ok []
  | item :: rest =>
    match item.id, item.amount with
    | some iid, some amt =>
      if iid == 0 || amt == 0 then Except.error "invalid ingredient format"
      else
        match ingTable.find? fun i => i.id == iid with
        | none => Except.error "ingredient does not exist"
        | some _ =>
          if iid ∈ seen then Except.error "ingredient listed twice"
          else if amt < MIN_AMOUNT then
            Except.error "amount must be at least MIN_AMOUNT"
          else
            match validate_ingredients_loop ingTable (iid :: seen) rest with
            | Except.error e => Except.error e
            | Except.ok tail => Except.ok ((iid, amt) :: tail)
    | _, _ => Except.error "invalid ingredient format"

/-- `RecipeCreateUpdateSerializer.validate_ingredients`: empty-list check,
then the per-item loop. -/
def validate_ingredients (ingTable : List Ingredient)
    (value : List IngredientInput) : Except String (List (Nat × Int)) :=
  if value.isEmpty then Except.error "add at least one ingredient"
  else validate_ingredients_loop ingTable [] value

/-- The `PrimaryKeyRelatedField(many=True)` resolution of submitted tag
ids: every id must name an existing tag. -/
def resolve_tags (tagTable : List Nat) (value : List Nat) :
    Except String (List Nat) :=
  if value.all (fun t => tagTable.contains t) then Except.ok value
  else Except.error "tag does not exist"

/-- `RecipeCreateUpdateSerializer.validate_tags`: at least one tag, no
duplicates (`len(tag_ids) != len(set(tag_ids))`). -/
def validate_tags (value : List Nat) : Except String (List Nat) :=
  if value.isEmpty then Except.error "add at least one tag"
  else if value.length ≠ value.eraseDups.length then
    Except.error "tags must be unique"
  else Except.ok value

/-- A recipe create payload; `none` models an absent field (both
`ingredients` and `tags` are declared write-only and required). -/
structure RecipeInput where
  name : String
  ingredients : Option (List IngredientInput)
  tags : Option (List Nat)
deriving DecidableEq, Repr

/-- `RecipeCreateUpdateSerializer` validation followed by `create`: on
success a new `Recipe` row is appended (no uniqueness check of any kind),
its `RecipeIngredient` and `RecipeTags` rows are bulk-created, and the new
id is returned.  Any validation failure aborts before any write. -/
def recipe_create (u : Nat) (st : State) (inp : RecipeInput) :
    Except String (State × Nat) :=
  match inp.ingredients, inp.tags with
  | none, _ => Except.error "ingredients: this field is required"
  | _, none => Except.error "tags: this field is required"
  | some ingInputs, some rawTags =>
    match resolve_tags st.tags rawTags with
    | Except.error e => Except.error e
    | Except.ok resolved =>
      match validate_tags resolved with
      | Except.error e => Except.error e
      | Except.ok tagIds =>
        match validate_ingredients st.ingredients ingInputs with
        | Except.error e => Except.error e
        | Except.ok ings =>
          let rid := st.next_recipe_id
          Except.ok
            ({ st with
                recipes := st.recipes ++ [⟨rid, u, inp.name⟩]
                recipe_ingredients :=
                  st.recipe_ingredients ++ ings.map fun p => ⟨rid, p.1, p.2.toNat⟩
                recipe_tags := st.recipe_tags ++ tagIds.map fun t => ⟨rid, t⟩
                next_recipe_id := rid + 1 }, rid)

/-- The create endpoint as the client sees it: the stored state afterwards
and whether the write succeeded (a validation error stores nothing). -/
def recipe_create_endpoint (u : Nat) (st : State) (inp : RecipeInput) :
    State × Bool :=
  match recipe_create u st inp with
  | Except.ok (st2, _) => (st2, true)
  | Except.error _ => (st, false)

/-- The claim's Recipe invariant: no two rows share (name, author). -/
def RecipeNameAuthorUnique (st : State) : Prop :=
  (st.recipes.map fun r => (r.name, r.author)).Nodup

instance (st : State) : Decidable (RecipeNameAuthorUnique st) := by
  unfold RecipeNameAuthorUnique; infer_instance

/-! ### Favorite / cart / subscription endpoints -/

/-- An HTTP outcome of the relation endpoints. -/
inductive ApiResponse where
  | created
  | noContent
  | badRequest (msg : String)
  | notFound
deriving DecidableEq, Repr

/-- POST branch of `RecipeViewSet._change_relation`
(foodgram/api/views.py): reject when the (user, recipe) relation already
exists, otherwise create it. -/
def recipeViewSet_change_relation_post (tbl : List UserRecipeRow)
    (user recipe : Nat) : ApiResponse × List UserRecipeRow :=
  if tbl.any fun r => r.user == user && r.recipe == recipe then
    (ApiResponse.badRequest "recipe already added", tbl)
  else (ApiResponse.created, tbl ++ [⟨user, recipe⟩])

/-- The relation-table action of the DELETE branch of
`RecipeViewSet._change_relation` (foodgram/api/views.py), reached once the
`self.get_object()` prologue has found the recipe: 400 when the relation
does not exist, otherwise delete the matching rows and answer 204.  The
full endpoint including the prologue's 404 path is
`recipeViewSet_change_relation_delete_action`. -/
def recipeViewSet_change_relation_delete (tbl : List UserRecipeRow)
    (user recipe : Nat) : ApiResponse × List UserRecipeRow :=
  if tbl.any fun r => r.user == user && r.recipe == recipe then
    (ApiResponse.noContent,
      tbl.filter fun r => !(r.user == user && r.recipe == recipe))
  else (ApiResponse.badRequest "recipe not found", tbl)

/-- The DELETE action of `RecipeViewSet._change_relation`
(foodgram/api/views.py) in full: `recipe = self.get_object()` raises
Http404 when no `Recipe` row has the requested id, and only then does the
relation-table branch run. -/
def recipeViewSet_change_relation_delete_action (st : State)
    (tbl : List UserRecipeRow) (user recipe : Nat) :
    ApiResponse × List UserRecipeRow :=
  if st.recipes.any fun x => x.id == recipe then
    recipeViewSet_change_relation_delete tbl user recipe
  else (ApiResponse.notFound, tbl)

/-- DELETE branch of `RecipeViewSet._handle_relation_action`
(api/views.py): `model.objects.filter(user=user, recipe_id=pk).delete()`,
then 400 if the deleted count was zero, else 204.  (Deleting from an empty
match set leaves the table as it was, so the state update commutes with
the count check.) -/
def recipeViewSet_handle_relation_delete (tbl : List UserRecipeRow)
    (user recipe : Nat) : ApiResponse × List UserRecipeRow :=
  let deleted := tbl.filter fun r => r.user == user && r.recipe == recipe
  let rest := tbl.filter fun r => !(r.user == user && r.recipe == recipe)
  if deleted.length = 0 then (ApiResponse.badRequest "recipe not in list", tbl)
  else (ApiResponse.noContent, rest)

/-- POST branch of `UserViewSet.subscribe` (foodgram/api/views.py): first
the already-subscribed check, then the self-subscription check, then the
row is created. -/
def userViewSet_subscribe_post (st : State) (user author : Nat) :
    ApiResponse × State :=
  if st.subscriptions.any fun s => s.user == user && s.author == author then
    (ApiResponse.badRequest "already subscribed to this user", st)
  else if user = author then
    (ApiResponse.badRequest "cannot subscribe to yourself", st)
  else
    (ApiResponse.created,
      { st with subscriptions := st.subscriptions ++ [⟨user, author⟩] })

/-- `SubscriptionSerializer.validate` (api/serializers.py): the
self-subscription check comes first, then the duplicate check. -/
def subscriptionSerializer_validate (st : State) (user author : Nat) :
    Except String Unit :=
  if user = author then Except.error "cannot subscribe to yourself"
  else if st.subscriptions.any fun s => s.user == user && s.author == author then
    Except.error "already subscribed to this user"
  else Except.ok ()

/-! ### Unit pluralization (recipes/models.py `Ingredient`) -/

/-- `Ingredient.UNITS`: the unit choices offered by the model field. -/
def UNITS : List (String × String) :=
  [("Гр", "Граммы"), ("Кг", "Килограммы"), ("Мл", "Миллилитры"),
   ("Л", "Литры"), ("Шт", "Штуки"), ("СЛ", "Столовые ложки"),
   ("ЧЛ", "Чайные ложки")]

/-- `Ingredient.UNIT_FORMS`: singular / paucal / plural word forms per unit
code.  Note the key `СТ` where `UNITS` offers `СЛ`. -/
def UNIT_FORMS : List (String × (String × String × String)) :=
  [("Гр", ("грамм", "грамма", "граммов")),
   ("Кг", ("килограмм", "килограмма", "килограммов")),
   ("Мл", ("миллилитр", "миллилитра", "миллилитров")),
   ("Л", ("литр", "литра", "литров")),
   ("Шт", ("штука", "штуки", "штук")),
   ("СТ", ("столовая ложка", "столовые ложки", "столовых ложек")),
   ("ЧЛ", ("чайная ложка", "чайные ложки", "чайных ложек"))]

/-- `self.UNIT_FORMS.get(self.measurement_unit, ["", "", ""])`. -/
def unit_forms_for (measurement_unit : String) : String × String × String :=
  match UNIT_FORMS.find? fun p => p.1 == measurement_unit with
  | some p => p.2
  | none => ("", "", "")

/-- `Ingredient.get_unit_with_amount_display`: pick the grammatical form of
the unit from `abs(amount) % 100` and its last digit. -/
def get_unit_with_amount_display (measurement_unit : String) (amount : Int) :
    String :=
  let unit_forms := unit_forms_for measurement_unit
  let n := amount.natAbs % 100
  let n1 := n % 10
  if 10 < n ∧ n < 20 then unit_forms.2.2
  else if 1 < n1 ∧ n1 < 5 then unit_forms.2.1
  else if n1 = 1 then unit_forms.1
  else unit_forms.2.2

/-- The claim's selector: the form index depends only on `amount % 100` —
index 2 for remainders 11–19, otherwise by last digit (1 for 2–4, 0 for 1,
2 for everything else). -/
def claim_form_index (m : Nat) : Nat :=
  if 11 ≤ m % 100 ∧ m % 100 ≤ 19 then 2
  else if 2 ≤ m % 100 % 10 ∧ m % 100 % 10 ≤ 4 then 1
  else if m % 100 % 10 = 1 then 0
  else 2

/-- Projection of a forms triple at an index (0, 1 or 2). -/
def form_at (forms : String × String × String) : Nat → String
  | 0 => forms.1
  | 1 => forms.2.1
  | _ => forms.2.2

/-! ### Concrete states used by counterexamples and witnesses -/

/-- The spec's running example: Recipe A holds 200 flour, Recipe B holds
50 flour and 100 sugar, and user 7's cart holds both recipes. -/
def exampleCartState : State where
  ingredients := [⟨1, "flour", "g"⟩, ⟨2, "sugar", "g"⟩]
  tags := [1]
  recipes := [⟨1, 1, "Recipe A"⟩, ⟨2, 1, "Recipe B"⟩]
  recipe_ingredients := [⟨1, 1, 200⟩, ⟨2, 1, 50⟩, ⟨2, 2, 100⟩]
  recipe_tags := []
  favorites := []
  shopping_carts := [⟨7, 1⟩, ⟨7, 2⟩]
  subscriptions := []
  next_recipe_id := 3

/-- Two ingredients whose table order ("b" before "a") is not alphabetical,
one recipe using both, and that recipe in user 1's cart. -/
def unsortedCartState : State where
  ingredients := [⟨1, "b", "g"⟩, ⟨2, "a", "g"⟩]
  tags := [1]
  recipes := [⟨1, 1, "Recipe"⟩]
  recipe_ingredients := [⟨1, 1, 5⟩, ⟨1, 2, 7⟩]
  recipe_tags := []
  favorites := []
  shopping_carts := [⟨1, 1⟩]
  subscriptions := []
  next_recipe_id := 2

/-- A minimal state with one tag and one ingredient and no recipes. -/
def emptyRecipesState : State where
  ingredients := [⟨1, "flour", "g"⟩]
  tags := [1]
  recipes := []
  recipe_ingredients := []
  recipe_tags := []
  favorites := []
  shopping_carts := []
  subscriptions := []
  next_recipe_id := 1

/-- A well-formed create payload used to create the same recipe twice. -/
def pancakesInput : RecipeInput where
  name := "pancakes"
  ingredients := some [⟨some 1, some 5⟩]
  tags := some [1]

/-- `emptyRecipesState` after one successful `recipe_create` of
`pancakesInput` by user 1. -/
def afterFirstCreate : State where
  ingredients := [⟨1, "flour", "g"⟩]
  tags := [1]
  recipes := [⟨1, 1, "pancakes"⟩]
  recipe_ingredients := [⟨1, 1, 5⟩]
  recipe_tags := [⟨1, 1⟩]
  favorites := []
  shopping_carts := []
  subscriptions := []
  next_recipe_id := 2

/-! ### Supporting lemmas for the aggregation -/

/-- Membership in the deduplicated key list is membership in the key list. -/
theorem mem_firstKeys (k : String × String) :
    ∀ l : List (String × String), k ∈ firstKeys l ↔ k ∈ l := by
  intro l
  induction l with
  | nil => simp [firstKeys]
  | cons a l ih =>
      simp only [firstKeys, List.mem_cons, List.mem_filter, bne_iff_ne, ih]
      constructor
      · rintro (rfl | ⟨hk, _⟩)
        · exact Or.inl rfl
        · exact Or.inr hk
      · rintro (rfl | hk)
        · exact Or.inl rfl
        · by_cases hka : k = a
          · exact Or.inl hka
          · exact Or.inr ⟨hk, hka⟩

/-- The deduplicated key list has no duplicates. -/
theorem nodup_firstKeys : ∀ l : List (String × String), (firstKeys l).Nodup := by
  intro l
  induction l with
  | nil => simp [firstKeys]
  | cons a l ih =>
      simp only [firstKeys, List.nodup_cons]
      refine ⟨?_, ih.filter _⟩
      intro hmem
      rcases List.mem_filter.mp hmem with ⟨_, hne⟩
      exact (bne_iff_ne.mp hne) rfl

/-- In a table whose `(user, recipe)` pairs are distinct, at most one row
matches a given pair. -/
theorem filter_pair_length_le_one (u r : Nat) :
    ∀ tbl : List UserRecipeRow, (pairsOf tbl).Nodup →
      (tbl.filter fun c => c.user == u && c.recipe == r).length ≤ 1 := by
  intro tbl
  induction tbl with
  | nil => intro _; simp
  | cons c tbl ih =>
      intro hnodup
      rw [pairsOf, List.map_cons, List.nodup_cons] at hnodup
      rw [List.filter_cons]
      by_cases hc : (c.user == u && c.recipe == r) = true
      · rw [if_pos hc]
        have hcu : c.user = u := by
          have := (Bool.and_eq_true _ _).mp hc
          exact eq_of_beq this.1
        have hcr : c.recipe = r := by
          have := (Bool.and_eq_true _ _).mp hc
          exact eq_of_beq this.2
        have hempty : (tbl.filter fun x => x.user == u && x.recipe == r) = [] := by
          rw [List.filter_eq_nil_iff]
          intro x hx hxmatch
          have hxu : x.user = u := by
            have := (Bool.and_eq_true _ _).mp hxmatch
            exact eq_of_beq this.1
          have hxr : x.recipe = r := by
            have := (Bool.and_eq_true _ _).mp hxmatch
            exact eq_of_beq this.2
          exact hnodup.1 (List.mem_map.mpr ⟨x, hx, by rw [hxu, hxr, hcu, hcr]⟩)
        rw [hempty]
        simp
      · rw [if_neg hc]
        exact ih hnodup.2

/-- Under the cart's uniqueness constraint, the SQL join of the queryset
produces exactly one copy of each `RecipeIngredient` row whose recipe is in
the cart: the join equals the claim's membership filter. -/
theorem cart_recipe_ingredients_eq_spec (st : State) (user : Nat)
    (h : CartOk st) : cart_recipe_ingredients st user = cart_rows_spec st user := by
  rw [cart_recipe_ingredients, cart_rows_spec]
  induction st.recipe_ingredients with
  | nil => simp
  | cons ri rest ih =>
      rw [List.flatMap_cons, List.filter_cons, ih]
      by_cases hmem :
          (st.shopping_carts.any fun c => c.user == user && c.recipe == ri.recipe) = true
      · rw [if_pos hmem]
        have hne :
            (st.shopping_carts.filter fun c =>
              c.user == user && c.recipe == ri.recipe) ≠ [] := by
          rcases List.any_eq_true.mp hmem with ⟨c, hc, hcm⟩
          intro hnil
          have := List.filter_eq_nil_iff.mp hnil c hc
          exact this hcm
        have hle := filter_pair_length_le_one user ri.recipe st.shopping_carts h
        have hlen :
            (st.shopping_carts.filter fun c =>
              c.user == user && c.recipe == ri.recipe).length = 1 := by
          have hpos : 0 <
              (st.shopping_carts.filter fun c =>
                c.user == user && c.recipe == ri.recipe).length :=
            List.length_pos.mpr hne
          omega
        rcases List.length_eq_one.mp hlen with ⟨c, hc⟩
        rw [hc]
        simp
      · rw [if_neg hmem]
        have hnil :
            (st.shopping_carts.filter fun c =>
              c.user == user && c.recipe == ri.recipe) = [] := by
          rw [List.filter_eq_nil_iff]
          intro c hc hcm
          exact hmem (List.any_eq_true.mpr ⟨c, hc, hcm⟩)
        rw [hnil]
        simp

/-- The two filter predicates of the summation (Bool equality test in the
code, propositional pair equality in the claim) agree. -/
theorem filter_key_congr (rows : List ValuesRow) (n u : String) :
    (rows.filter fun r => r.name == n && r.unit == u) =
      rows.filter fun r => decide (r.name = n ∧ r.unit = u) := by
  apply List.filter_congr
  intro r _
  by_cases h1 : r.name = n
  · by_cases h2 : r.unit = u
    · simp [h1, h2]
    · simp [h1, h2]
  · simp [h1]

/-- C1: for every user whose shopping-cart table satisfies its uniqueness
constraint, `generate_shopping_list` returns one tuple per distinct
(ingredient name, measurement unit) pair occurring in the cart's
`RecipeIngredient` rows, with `total_amount` the sum of exactly those rows'
amounts; in particular, a cart with Recipe A (200 flour) and Recipe B
(50 flour, 100 sugar) yields flour 250 and sugar 100. -/
theorem generate_shopping_list_correct :
    (∀ st user, CartOk st →
        AggCorrect (values_rows_spec st user) (generate_shopping_list st user)) ∧
      generate_shopping_list exampleCartState 7 =
        [⟨"flour", "g", 250⟩, ⟨"sugar", "g", 100⟩] := by
  constructor
  · intro st user h
    have hrows : values_rows st user = values_rows_spec st user := by
      rw [values_rows, values_rows_spec, cart_recipe_ingredients_eq_spec st user h]
    rw [generate_shopping_list, hrows]
    generalize values_rows_spec st user = rows
    have hkeys : (group_sum rows).map (fun e => (e.name, e.unit)) =
        firstKeys (rows.map fun r => (r.name, r.unit)) := by
      rw [group_sum, List.map_map]
      apply List.map_id''
      intro k
      rfl
    refine ⟨?_, ?_, ?_⟩
    · rw [hkeys]
      exact nodup_firstKeys _
    · intro n u
      rw [hkeys, mem_firstKeys]
    · intro e he
      rw [group_sum] at he
      rcases List.mem_map.mp he with ⟨k, _, rfl⟩
      rw [filter_key_congr]
  · decide

/-- Witness for C1 at the spec's flour/sugar example. -/
theorem generate_shopping_list_correct_witness :
    CartOk exampleCartState ∧
      AggCorrect (values_rows_spec exampleCartState 7)
        (generate_shopping_list exampleCartState 7) :=
  ⟨by decide, generate_shopping_list_correct.1 exampleCartState 7 (by decide)⟩

/-- C2 counterexample: `generate_shopping_list` carries no ORDER BY, so the
format-dispatch endpoint renders the groups in row-encounter order on all
three paths; with the ingredient table listing "b" before "a" the rendered
name sequence ["b", "a"] is not sorted ascending. -/
theorem shopping_list_unsorted_cex :
    (shoppingCartViewSet_download_shopping_cart unsortedCartState 1 none).rows =
        [⟨"b", "g", 5⟩, ⟨"a", "g", 7⟩] ∧
      (shoppingCartViewSet_download_shopping_cart unsortedCartState 1
          (some "csv")).rows = [⟨"b", "g", 5⟩, ⟨"a", "g", 7⟩] ∧
      (shoppingCartViewSet_download_shopping_cart unsortedCartState 1
          (some "pdf")).rows = [⟨"b", "g", 5⟩, ⟨"a", "g", 7⟩] ∧
      ¬ (((shoppingCartViewSet_download_shopping_cart unsortedCartState 1
          none).rows.map fun e => e.name).Sorted (· ≤ ·)) := by
  refine ⟨by decide, by decide, by decide, ?_⟩
  intro hsorted
  have hrows : ((shoppingCartViewSet_download_shopping_cart unsortedCartState 1
      none).rows.map fun e => e.name) = ["b", "a"] := by decide
  rw [hrows] at hsorted
  have hle : ("b" : String) ≤ "a" := (List.sorted_cons.mp hsorted).1 "a" (by simp)
  rw [String.le_iff_toList_le] at hle
  exact absurd hle (by decide)

/-- C2 as amended: the txt endpoint of `RecipeViewSet.download_shopping_cart`
does sort ascending by ingredient name (it is the only path with an
ORDER BY). -/
theorem download_shopping_cart_sorted (st : State) (user : Nat) :
    ((download_shopping_cart_query st user).map fun e => e.name).Sorted
      (· ≤ ·) := by
  have h : (download_shopping_cart_query st user).Sorted
      fun a b => a.name ≤ b.name :=
    List.sorted_insertionSort _ _
  exact List.Pairwise.map _ (fun a b hab => hab) h

/-- C4 counterexample: the `RecipeViewSet.download_shopping_cart` endpoint
never reads the `format` parameter; a request with `format=csv` is answered
with the plain-text rendering, not CSV. -/
theorem download_format_ignored_cex :
    (∃ rows, recipeViewSet_download_shopping_cart unsortedCartState 1
        (some "csv") = Rendered.txt rows) ∧
      ∀ rows, recipeViewSet_download_shopping_cart unsortedCartState 1
          (some "csv") ≠ Rendered.csv rows := by
  constructor
  · exact ⟨_, rfl⟩
  · intro rows h
    simp [recipeViewSet_download_shopping_cart] at h

/-- C4 as amended: only `ShoppingCartViewSet.download_shopping_cart`
dispatches on the `format` parameter — PDF for `pdf`, CSV for `csv`, and
plain text for `txt` or an absent parameter — all over the same aggregated
data, while `RecipeViewSet.download_shopping_cart` renders plain text
whatever the parameter says. -/
theorem download_format_dispatch (st : State) (user : Nat) :
    shoppingCartViewSet_download_shopping_cart st user (some "pdf") =
        Rendered.pdf (generate_shopping_list st user) ∧
      shoppingCartViewSet_download_shopping_cart st user (some "csv") =
        Rendered.csv (generate_shopping_list st user) ∧
      shoppingCartViewSet_download_shopping_cart st user (some "txt") =
        Rendered.txt (generate_shopping_list st user) ∧
      shoppingCartViewSet_download_shopping_cart st user none =
        Rendered.txt (generate_shopping_list st user) ∧
      ∀ fmt, recipeViewSet_download_shopping_cart st user fmt =
        Rendered.txt (download_shopping_cart_query st user) :=
  ⟨rfl, rfl, rfl, rfl, fun _ => rfl⟩

/-- C3 counterexample: an amount of 10000 exceeds `MAX_AMOUNT = 9999`, yet
`validate_ingredients` accepts it — the upper bound is never checked. -/
theorem validate_ingredients_max_cex :
    validate_ingredients exampleCartState.ingredients
        [⟨some 1, some 10000⟩] = Except.ok [(1, 10000)] ∧
      MAX_AMOUNT < 10000 := by
  constructor
  · rfl
  · decide

/-- An accepted ingredient list only contains entries with a present id, a
present amount, and an amount of at least `MIN_AMOUNT`. -/
theorem validate_ingredients_loop_amounts :
    ∀ (value : List IngredientInput) (ingTable : List Ingredient)
      (seen : List Nat) (out : List (Nat × Int)),
      validate_ingredients_loop ingTable seen value = Except.ok out →
      ∀ item ∈ value, ∃ n a, item.id = some n ∧ item.amount = some a ∧
        MIN_AMOUNT ≤ a := by
  intro value
  induction value with
  | nil =>
      intro ingTable seen out h item hmem
      simp at hmem
  | cons item rest ih =>
      intro ingTable seen out h it hit
      rcases hid : item.id with _ | iid
      · simp [validate_ingredients_loop, hid] at h
      · rcases hamt : item.amount with _ | amt
        · simp [validate_ingredients_loop, hid, hamt] at h
        · simp only [validate_ingredients_loop, hid, hamt] at h
          by_cases h0 : (iid == 0 || amt == 0) = true
          · simp [h0] at h
          · simp only [h0, Bool.false_eq_true, if_false] at h
            cases hfind : ingTable.find? fun i => i.id == iid with
            | none => simp [hfind] at h
            | some ing =>
              simp only [hfind] at h
              by_cases hseen : iid ∈ seen
              · simp [hseen] at h
              · simp only [hseen, if_false] at h
                by_cases hmin : amt < MIN_AMOUNT
                · simp [hmin] at h
                · simp only [hmin, if_false] at h
                  cases hloop :
                      validate_ingredients_loop ingTable (iid :: seen) rest with
                  | error e => simp [hloop] at h
                  | ok tail =>
                    rcases List.mem_cons.mp hit with rfl | htail
                    · exact ⟨iid, amt, hid, hamt, not_lt.mp hmin⟩
                    · exact ih ingTable (iid :: seen) tail hloop it htail

/-- C3 as amended: `validate_ingredients` accepts an entry only when its
amount is present and at least `MIN_AMOUNT = 1` (strictly positive); no
upper bound is enforced. -/
theorem validate_ingredients_min_only :
    ∀ (ingTable : List Ingredient) (value : List IngredientInput)
      (out : List (Nat × Int)),
      validate_ingredients ingTable value = Except.ok out →
      ∀ item ∈ value, ∃ n a, item.id = some n ∧ item.amount = some a ∧
        MIN_AMOUNT ≤ a := by
  intro ingTable value out h
  rw [validate_ingredients] at h
  by_cases hemp : value.isEmpty
  · simp [hemp] at h
  · simp only [hemp, Bool.false_eq_true, if_false] at h
    exact validate_ingredients_loop_amounts value ingTable [] out h

/-- Witness for the amended C3 at a concrete accepted payload. -/
theorem validate_ingredients_min_only_witness :
    validate_ingredients exampleCartState.ingredients [⟨some 1, some 3⟩] =
        Except.ok [(1, 3)] ∧
      ∀ item ∈ [(⟨some 1, some 3⟩ : IngredientInput)],
        ∃ n a, item.id = some n ∧ item.amount = some a ∧ MIN_AMOUNT ≤ a :=
  ⟨rfl, validate_ingredients_min_only exampleCartState.ingredients _ _ rfl⟩

/-- A successful `recipe_create` implies both lists were submitted and
nonempty. -/
theorem recipe_create_ok_shape :
    ∀ (u : Nat) (st : State) (inp : RecipeInput) (res : State × Nat),
      recipe_create u st inp = Except.ok res →
      ∃ iv tv, inp.ingredients = some iv ∧ inp.tags = some tv ∧
        iv ≠ [] ∧ tv ≠ [] := by
  intro u st inp res h
  rcases hing : inp.ingredients with _ | iv
  · simp [recipe_create, hing] at h
  · rcases htag : inp.tags with _ | tv
    · simp [recipe_create, hing, htag] at h
    · refine ⟨iv, tv, rfl, rfl, ?_, ?_⟩
      · rintro rfl
        simp only [recipe_create, hing, htag] at h
        cases hres : resolve_tags st.tags tv with
        | error e => simp [hres] at h
        | ok resolved =>
          simp only [hres] at h
          cases hvt : validate_tags resolved with
          | error e => simp [hvt] at h
          | ok tagIds =>
            simp only [hvt] at h
            simp [validate_ingredients] at h
      · rintro rfl
        simp only [recipe_create, hing, htag] at h
        have hres : resolve_tags st.tags [] = Except.ok [] := by
          simp [resolve_tags]
        rw [hres] at h
        simp [validate_tags] at h

/-- C5: a recipe create with absent or empty tags, or absent or empty
ingredients, fails validation and stores nothing. -/
theorem recipe_create_requires_tags_and_ingredients :
    ∀ (u : Nat) (st : State) (inp : RecipeInput),
      (inp.tags = none ∨ inp.tags = some [] ∨ inp.ingredients = none ∨
        inp.ingredients = some []) →
      recipe_create_endpoint u st inp = (st, false) := by
  intro u st inp hbad
  rw [recipe_create_endpoint]
  cases hres : recipe_create u st inp with
  | error e => rfl
  | ok res =>
    exfalso
    rcases recipe_create_ok_shape u st inp res hres with
      ⟨iv, tv, hing, htag, hivne, htvne⟩
    rcases hbad with hb | hb | hb | hb
    · rw [htag] at hb
      exact Option.noConfusion hb
    · rw [htag] at hb
      exact htvne (Option.some.injEq _ _ ▸ hb.symm ▸ rfl)
    · rw [hing] at hb
      exact Option.noConfusion hb
    · rw [hing] at hb
      exact hivne (Option.some.injEq _ _ ▸ hb.symm ▸ rfl)

/-- Witness for C5: creating with an absent tag list fails and leaves the
state unchanged. -/
theorem recipe_create_requires_tags_and_ingredients_witness :
    ((⟨"pancakes", some [⟨some 1, some 5⟩], none⟩ : RecipeInput).tags = none ∨
        (⟨"pancakes", some [⟨some 1, some 5⟩], none⟩ : RecipeInput).tags =
          some [] ∨
        (⟨"pancakes", some [⟨some 1, some 5⟩], none⟩ :
          RecipeInput).ingredients = none ∨
        (⟨"pancakes", some [⟨some 1, some 5⟩], none⟩ :
          RecipeInput).ingredients = some []) ∧
      recipe_create_endpoint 1 emptyRecipesState
          ⟨"pancakes", some [⟨some 1, some 5⟩], none⟩ =
        (emptyRecipesState, false) :=
  ⟨Or.inl rfl,
    recipe_create_requires_tags_and_ingredients 1 emptyRecipesState _
      (Or.inl rfl)⟩

/-- C6: a self-subscription attempt is answered with 400 by the subscribe
view without touching the subscription table, and is likewise rejected by
`SubscriptionSerializer.validate`. -/
theorem self_subscription_rejected (st : State) (u : Nat) :
    (∃ m, userViewSet_subscribe_post st u u = (ApiResponse.badRequest m, st)) ∧
      subscriptionSerializer_validate st u u =
        Except.error "cannot subscribe to yourself" := by
  constructor
  · rw [userViewSet_subscribe_post]
    by_cases hex : (st.subscriptions.any fun s => s.user == u && s.author == u) = true
    · exact ⟨_, by rw [if_pos hex]⟩
    · exact ⟨_, by rw [if_neg hex, if_pos rfl]⟩
  · rw [subscriptionSerializer_validate, if_pos rfl]

/-- C7: inserting an already-present (user, recipe) pair into a favorite or
cart table is rejected with the table unchanged, and both the insert and
the delete endpoint preserve distinctness of the (user, recipe) pairs. -/
theorem favorite_cart_unique_pairs :
    (∀ (tbl : List UserRecipeRow) (u r : Nat), (u, r) ∈ pairsOf tbl →
        recipeViewSet_change_relation_post tbl u r =
          (ApiResponse.badRequest "recipe already added", tbl)) ∧
      (∀ (tbl : List UserRecipeRow) (u r : Nat), (pairsOf tbl).Nodup →
        (pairsOf (recipeViewSet_change_relation_post tbl u r).2).Nodup) ∧
      ∀ (tbl : List UserRecipeRow) (u r : Nat), (pairsOf tbl).Nodup →
        (pairsOf (recipeViewSet_change_relation_delete tbl u r).2).Nodup := by
  have hany : ∀ (tbl : List UserRecipeRow) (u r : Nat),
      (tbl.any fun x => x.user == u && x.recipe == r) = true ↔
        (u, r) ∈ pairsOf tbl := by
    intro tbl u r
    rw [List.any_eq_true, pairsOf]
    constructor
    · rintro ⟨x, hx, hmatch⟩
      rcases (Bool.and_eq_true _ _).mp hmatch with ⟨h1, h2⟩
      exact List.mem_map.mpr ⟨x, hx, by rw [eq_of_beq h1, eq_of_beq h2]⟩
    · intro hmem
      rcases List.mem_map.mp hmem with ⟨x, hx, hxeq⟩
      refine ⟨x, hx, ?_⟩
      rw [Prod.mk.injEq] at hxeq
      simp [hxeq.1, hxeq.2]
  refine ⟨?_, ?_, ?_⟩
  · intro tbl u r hmem
    rw [recipeViewSet_change_relation_post, if_pos ((hany tbl u r).mpr hmem)]
  · intro tbl u r hnodup
    rw [recipeViewSet_change_relation_post]
    by_cases hex : (tbl.any fun x => x.user == u && x.recipe == r) = true
    · rw [if_pos hex]
      exact hnodup
    · rw [if_neg hex]
      have hmap : pairsOf (tbl ++ [⟨u, r⟩]) = pairsOf tbl ++ [(u, r)] := by
        simp [pairsOf]
      rw [hmap, List.nodup_append]
      refine ⟨hnodup, List.nodup_singleton _, ?_⟩
      intro p hp hp2
      rcases List.mem_singleton.mp hp2 with rfl
      exact hex ((hany tbl u r).mpr hp)
  · intro tbl u r hnodup
    rw [recipeViewSet_change_relation_delete]
    by_cases hex : (tbl.any fun x => x.user == u && x.recipe == r) = true
    · rw [if_pos hex]
      exact List.Nodup.sublist
        (List.Sublist.map _ (List.filter_sublist tbl)) hnodup
    · rw [if_neg hex]
      exact hnodup

/-- Witness for C7 on a one-row table. -/
theorem favorite_cart_unique_pairs_witness :
    ((1, 2) ∈ pairsOf [⟨1, 2⟩]) ∧
      recipeViewSet_change_relation_post [⟨1, 2⟩] 1 2 =
        (ApiResponse.badRequest "recipe already added", [⟨1, 2⟩]) ∧
      (pairsOf (recipeViewSet_change_relation_post [⟨1, 2⟩] 1 2).2).Nodup ∧
      (pairsOf (recipeViewSet_change_relation_delete [⟨1, 2⟩] 1 2).2).Nodup :=
  ⟨by decide, favorite_cart_unique_pairs.1 _ 1 2 (by decide),
    favorite_cart_unique_pairs.2.1 _ 1 2 (by decide),
    favorite_cart_unique_pairs.2.2 _ 1 2 (by decide)⟩

/-- Membership of a pair in a relation table is what the `any` test of both
delete endpoints checks. -/
theorem any_pair_iff_mem (tbl : List UserRecipeRow) (u r : Nat) :
    (tbl.any fun x => x.user == u && x.recipe == r) = true ↔
      (u, r) ∈ pairsOf tbl := by
  rw [List.any_eq_true, pairsOf]
  constructor
  · rintro ⟨x, hx, hmatch⟩
    rcases (Bool.and_eq_true _ _).mp hmatch with ⟨h1, h2⟩
    exact List.mem_map.mpr ⟨x, hx, by rw [eq_of_beq h1, eq_of_beq h2]⟩
  · intro hmem
    rcases List.mem_map.mp hmem with ⟨x, hx, hxeq⟩
    refine ⟨x, hx, ?_⟩
    rw [Prod.mk.injEq] at hxeq
    simp [hxeq.1, hxeq.2]

/-- C9 counterexample: for a recipe id with no `Recipe` row (so certainly
no (user, recipe) relation), the `_change_relation` DELETE endpoint answers
404 from its `get_object()` prologue, not the claimed 400. -/
theorem relation_delete_404_cex :
    ((emptyRecipesState.recipes.any fun x => x.id == 5) = false) ∧
      (1, 5) ∉ pairsOf emptyRecipesState.favorites ∧
      recipeViewSet_change_relation_delete_action emptyRecipesState
          emptyRecipesState.favorites 1 5 =
        (ApiResponse.notFound, emptyRecipesState.favorites) ∧
      ∀ m, ApiResponse.notFound ≠ ApiResponse.badRequest m := by
  refine ⟨by decide, by decide, by decide, ?_⟩
  intro m h
  exact ApiResponse.noConfusion h

/-- C9 as amended: the api/views.py delete answers 400 with the table
untouched whenever the (user, recipe) pair is absent — for any recipe id —
and answers 204 keeping exactly the rows with a different pair when it is
present; the foodgram `_change_relation` delete behaves the same once the
recipe id exists, but answers 404 with the table untouched when it does
not. -/
theorem relation_delete_behavior_full (st : State) (tbl : List UserRecipeRow)
    (u r : Nat) :
    ((u, r) ∉ pairsOf tbl →
        recipeViewSet_handle_relation_delete tbl u r =
          (ApiResponse.badRequest "recipe not in list", tbl)) ∧
      ((u, r) ∈ pairsOf tbl →
        (recipeViewSet_handle_relation_delete tbl u r).1 =
            ApiResponse.noContent ∧
          ∀ x, x ∈ (recipeViewSet_handle_relation_delete tbl u r).2 ↔
            x ∈ tbl ∧ (x.user, x.recipe) ≠ (u, r)) ∧
      ((st.recipes.any fun x => x.id == r) = true →
        ((u, r) ∉ pairsOf tbl →
            recipeViewSet_change_relation_delete_action st tbl u r =
              (ApiResponse.badRequest "recipe not found", tbl)) ∧
          ((u, r) ∈ pairsOf tbl →
            recipeViewSet_change_relation_delete_action st tbl u r =
              recipeViewSet_handle_relation_delete tbl u r)) ∧
      ((st.recipes.any fun x => x.id == r) = false →
        recipeViewSet_change_relation_delete_action st tbl u r =
          (ApiResponse.notFound, tbl)) := by
  refine ⟨?_, ?_, ?_, ?_⟩
  · intro hout
    have hnil : (tbl.filter fun x => x.user == u && x.recipe == r) = [] := by
      rw [List.filter_eq_nil_iff]
      intro x hx hmatch
      exact hout ((any_pair_iff_mem tbl u r).mp
        (List.any_eq_true.mpr ⟨x, hx, hmatch⟩))
    rw [recipeViewSet_handle_relation_delete]
    simp [hnil]
  · intro hmem
    have hany : (tbl.any fun x => x.user == u && x.recipe == r) = true :=
      (any_pair_iff_mem tbl u r).mpr hmem
    have hne : (tbl.filter fun x => x.user == u && x.recipe == r) ≠ [] := by
      intro hnil
      rcases List.any_eq_true.mp hany with ⟨x, hx, hmatch⟩
      exact absurd hmatch (by
        have := List.filter_eq_nil_iff.mp hnil x hx
        simpa using this)
    have hlen : (tbl.filter fun x => x.user == u && x.recipe == r).length ≠ 0 := by
      intro h0
      exact hne (List.length_eq_zero.mp h0)
    constructor
    · rw [recipeViewSet_handle_relation_delete]
      simp only [if_neg hlen]
    · intro x
      rw [recipeViewSet_handle_relation_delete]
      simp only [if_neg hlen]
      rw [List.mem_filter]
      constructor
      · rintro ⟨hx, hkeep⟩
        refine ⟨hx, ?_⟩
        intro hpair
        rw [Prod.mk.injEq] at hpair
        simp [hpair.1, hpair.2] at hkeep
      · rintro ⟨hx, hpair⟩
        refine ⟨hx, ?_⟩
        simp only [Bool.not_eq_eq_eq_not, Bool.not_true, Bool.and_eq_false_iff]
        by_cases hu : x.user = u
        · by_cases hr : x.recipe = r
          · exact absurd (by rw [hu, hr]) hpair
          · exact Or.inr (by simpa using hr)
        · exact Or.inl (by simpa using hu)
  · intro hrec
    rw [recipeViewSet_change_relation_delete_action, if_pos hrec]
    constructor
    · intro hout
      have hany : (tbl.any fun x => x.user == u && x.recipe == r) = false := by
        rw [← Bool.not_eq_true]
        intro hcontra
        exact hout ((any_pair_iff_mem tbl u r).mp hcontra)
      rw [recipeViewSet_change_relation_delete]
      simp only [hany, Bool.false_eq_true, if_false]
    · intro hmem
      have hany : (tbl.any fun x => x.user == u && x.recipe == r) = true :=
        (any_pair_iff_mem tbl u r).mpr hmem
      have hne : (tbl.filter fun x => x.user == u && x.recipe == r) ≠ [] := by
        intro hnil
        rcases List.any_eq_true.mp hany with ⟨x, hx, hmatch⟩
        exact absurd hmatch (by
          have := List.filter_eq_nil_iff.mp hnil x hx
          simpa using this)
      have hlen :
          (tbl.filter fun x => x.user == u && x.recipe == r).length ≠ 0 := by
        intro h0
        exact hne (List.length_eq_zero.mp h0)
      rw [recipeViewSet_change_relation_delete,
        recipeViewSet_handle_relation_delete]
      simp only [hany, if_true, if_neg hlen]
  · intro hrec
    rw [recipeViewSet_change_relation_delete_action]
    simp only [hrec, Bool.false_eq_true, if_false]

/-- Witness for the amended C9 on a one-row table holding the deleted
pair. -/
theorem relation_delete_behavior_full_witness :
    ((1, 2) ∈ pairsOf [⟨1, 2⟩]) ∧
      ((recipeViewSet_handle_relation_delete [⟨1, 2⟩] 1 2).1 =
          ApiResponse.noContent ∧
        ∀ x, x ∈ (recipeViewSet_handle_relation_delete [⟨1, 2⟩] 1 2).2 ↔
          x ∈ [(⟨1, 2⟩ : UserRecipeRow)] ∧ (x.user, x.recipe) ≠ (1, 2)) :=
  ⟨by decide,
    (relation_delete_behavior_full emptyRecipesState [⟨1, 2⟩] 1 2).2.1
      (by decide)⟩

/-- C8 counterexample: creating the same recipe twice with the same author
succeeds both times, reaching a state with two Recipe rows sharing (name,
author). -/
theorem recipe_name_author_unique_cex :
    recipe_create 1 emptyRecipesState pancakesInput =
        Except.ok (afterFirstCreate, 1) ∧
      (recipe_create_endpoint 1 afterFirstCreate pancakesInput).2 = true ∧
      ¬ RecipeNameAuthorUnique
        (recipe_create_endpoint 1 afterFirstCreate pancakesInput).1 := by
  refine ⟨rfl, rfl, by decide⟩

/-- C8 as amended: `recipe_create` performs no (name, author) uniqueness
check — after any successful create, repeating the identical create
succeeds again and yields a state violating (name, author) uniqueness. -/
theorem recipe_create_no_name_author_check :
    ∀ (u : Nat) (st : State) (inp : RecipeInput) (st1 : State) (r1 : Nat),
      recipe_create u st inp = Except.ok (st1, r1) →
      ∃ st2 r2, recipe_create u st1 inp = Except.ok (st2, r2) ∧
        ¬ RecipeNameAuthorUnique st2 := by
  intro u st inp st1 r1 h
  rcases hing : inp.ingredients with _ | iv
  · simp [recipe_create, hing] at h
  · rcases htag : inp.tags with _ | tv
    · simp [recipe_create, hing, htag] at h
    · simp only [recipe_create, hing, htag] at h
      cases hres : resolve_tags st.tags tv with
      | error e => simp [hres] at h
      | ok resolved =>
        simp only [hres] at h
        cases hvt : validate_tags resolved with
        | error e => simp [hvt] at h
        | ok tagIds =>
          simp only [hvt] at h
          cases hvi : validate_ingredients st.ingredients iv with
          | error e => simp [hvi] at h
          | ok ings =>
            simp only [hvi, Except.ok.injEq, Prod.mk.injEq] at h
            obtain ⟨hst1, hr1⟩ := h
            have htags1 : st1.tags = st.tags := by rw [← hst1]
            have hing1 : st1.ingredients = st.ingredients := by rw [← hst1]
            have hrec1 : st1.recipes =
                st.recipes ++ [⟨st.next_recipe_id, u, inp.name⟩] := by
              rw [← hst1]
            refine ⟨{ st1 with
                recipes := st1.recipes ++ [⟨st1.next_recipe_id, u, inp.name⟩]
                recipe_ingredients := st1.recipe_ingredients ++
                  ings.map fun p => ⟨st1.next_recipe_id, p.1, p.2.toNat⟩
                recipe_tags := st1.recipe_tags ++
                  tagIds.map fun t => ⟨st1.next_recipe_id, t⟩
                next_recipe_id := st1.next_recipe_id + 1 },
              st1.next_recipe_id, ?_, ?_⟩
            · simp only [recipe_create, hing, htag, htags1, hing1, hres, hvt, hvi]
            · rw [RecipeNameAuthorUnique]
              simp only [hrec1, List.map_append, List.map_cons, List.map_nil]
              intro hnodup
              rw [List.append_assoc] at hnodup
              have hdup := List.Nodup.sublist
                (List.sublist_append_right
                  (st.recipes.map fun x => (x.name, x.author)) _)
                hnodup
              simp at hdup

/-- Witness for the amended C8 at the concrete double create. -/
theorem recipe_create_no_name_author_check_witness :
    recipe_create 1 emptyRecipesState pancakesInput =
        Except.ok (afterFirstCreate, 1) ∧
      ∃ st2 r2, recipe_create 1 afterFirstCreate pancakesInput =
          Except.ok (st2, r2) ∧ ¬ RecipeNameAuthorUnique st2 :=
  ⟨rfl,
    recipe_create_no_name_author_check 1 emptyRecipesState pancakesInput
      afterFirstCreate 1 rfl⟩

/-- C10: the pluralization helper picks the word form purely from
`amount % 100` — the third form for remainders 11–19, otherwise by last
digit (second form for 2–4, first form for 1, third form for the rest) —
and yields the empty string for any unit code missing from `UNIT_FORMS`,
in particular for the `СЛ` code offered in `UNITS`. -/
theorem get_unit_with_amount_display_spec :
    (∀ (mu : String) (a : Nat),
        get_unit_with_amount_display mu (a : Int) =
          form_at (unit_forms_for mu) (claim_form_index a)) ∧
      (∀ mu, mu ∉ UNIT_FORMS.map Prod.fst →
        ∀ a : Nat, get_unit_with_amount_display mu (a : Int) = "") ∧
      ("СЛ" ∈ UNITS.map Prod.fst ∧
        ∀ a : Nat, get_unit_with_amount_display "СЛ" (a : Int) = "") := by
  have habsent : ∀ mu, mu ∉ UNIT_FORMS.map Prod.fst →
      ∀ a : Nat, get_unit_with_amount_display mu (a : Int) = "" := by
    intro mu hmu a
    have hfind : (UNIT_FORMS.find? fun p => p.1 == mu) = none := by
      rw [List.find?_eq_none]
      intro x hx hmatch
      exact hmu (List.mem_map.mpr ⟨x, hx, eq_of_beq hmatch⟩)
    have hforms : unit_forms_for mu = ("", "", "") := by
      rw [unit_forms_for, hfind]
    rw [get_unit_with_amount_display, hforms]
    split_ifs <;> rfl
  refine ⟨?_, habsent, by decide, fun a => habsent "СЛ" (by decide) a⟩
  intro mu a
  rw [get_unit_with_amount_display, claim_form_index]
  simp only [Int.natAbs_ofNat]
  by_cases h1 : 10 < a % 100 ∧ a % 100 < 20
  · rw [if_pos h1, if_pos (by omega : 11 ≤ a % 100 ∧ a % 100 ≤ 19)]
    rfl
  · rw [if_neg h1, if_neg (by omega : ¬(11 ≤ a % 100 ∧ a % 100 ≤ 19))]
    by_cases h2 : 1 < a % 100 % 10 ∧ a % 100 % 10 < 5
    · rw [if_pos h2,
        if_pos (by omega : 2 ≤ a % 100 % 10 ∧ a % 100 % 10 ≤ 4)]
      rfl
    · rw [if_neg h2,
        if_neg (by omega : ¬(2 ≤ a % 100 % 10 ∧ a % 100 % 10 ≤ 4))]
      by_cases h3 : a % 100 % 10 = 1
      · rw [if_pos h3, if_pos h3]
        rfl
      · rw [if_neg h3, if_neg h3]
        rfl

/-- Witness for C10: a unit code absent from `UNIT_FORMS` gives the empty
string. -/
theorem get_unit_with_amount_display_spec_witness :
    ("СЛ" ∉ UNIT_FORMS.map Prod.fst) ∧
      get_unit_with_amount_display "СЛ" ((5 : Nat) : Int) = "" :=
  ⟨by decide, get_unit_with_amount_display_spec.2.1 "СЛ" (by decide) 5⟩

end Foodgram
